import Mathlib

/-!
# onmetal-image: `cmd/common/common.go`

A shallow embedding of the command helpers of `cmd/common/common.go`
(`FuzzyResolveRef`, `DefaultStoreFactory`, the package `init`, `SetupContext`)
together with the library functions they call, and theorems about them.

Strings are Go strings; where a function walks a string it does so over the
list of its characters.
-/

set_option autoImplicit false
set_option maxRecDepth 100000

namespace OnmetalImage

/-! ## Go errors -/

/-- Go `error` values as `common.go` produces and forwards them. -/
inductive GoError where
  /-- An `errors.New(msg)` value: a message and nothing wrapped -/
  | errorString (msg : String)
  /-- The result of `fmt.Errorf` with a `%w` verb: the formatted message and the wrapped error -/
  | wrapError (msg : String) (err : GoError)
  /-- Modelled from the spec: the `NotFound` failure of the index lookup -/
  | NotFound
  /-- Modelled from the spec: the `AmbiguousMatch` failure of the index lookup; the payload
  enumerates the digests of the candidates -/
  | AmbiguousMatch (candidates : List String)
  deriving DecidableEq, Repr

/-- Equality of Go results `(value, error)` is decidable. -/
instance instDecidableEqExcept {ε α : Type} [DecidableEq ε] [DecidableEq α] :
    DecidableEq (Except ε α)
  | .ok a, .ok b => if h : a = b then isTrue (by rw [h]) else isFalse (by intro h2; cases h2; exact h rfl)
  | .error a, .error b => if h : a = b then isTrue (by rw [h]) else isFalse (by intro h2; cases h2; exact h rfl)
  | .ok _, .error _ => isFalse (by intro h; cases h)
  | .error _, .ok _ => isFalse (by intro h; cases h)

/-! ## Regular expressions

`common.go` imports `github.com/distribution/distribution/reference` and, through
it, `github.com/opencontainers/go-digest`. Neither library is part of this repository; the
spec refers to what they accept as the standard reference grammar
(`name[:tag][@digest]`, a full digest, or a 64-hex identifier). The
definitions below spell that grammar out the way the libraries build it:
the expressions of `reference/regexp.go`, then `digest.Parse`,
`reference.Parse`, `ParseNormalizedNamed` and `ParseAnyReference`. -/

/-- The fragment of Go regular expressions that `reference/regexp.go` and
`go-digest` use: character classes, concatenation, alternation and counted
repetition (`hi = none` is unbounded). -/
inductive Regexp where
  | empty
  | cls (ranges : List (Char × Char))
  | cat (a b : Regexp)
  | alt (a b : Regexp)
  | rep (a : Regexp) (lo : Nat) (hi : Option Nat)
  deriving Repr

namespace Regexp

/-- Membership of a character in a class given by inclusive ranges. -/
def inClass (ranges : List (Char × Char)) (c : Char) : Bool :=
  ranges.any (fun r => decide (r.1.toNat ≤ c.toNat) && decide (c.toNat ≤ r.2.toNat))

/-- Set union on lists without repetition. -/
def union (xs ys : List (List Char)) : List (List Char) :=
  xs ++ ys.filter (fun y => !xs.elem y)

/-- Apply `f` exactly `n` times. -/
def times (f : List (List Char) → List (List Char)) : Nat → List (List Char) → List (List Char)
  | 0, S => S
  | n + 1, S => times f n (f S)

/-- Everything reachable from a set by at most `n` applications of `f`; the
iteration stops once nothing remains to apply `f` to. -/
def upTo (f : List (List Char) → List (List Char)) : Nat → List (List Char) → List (List Char)
  | 0, S => S
  | n + 1, S =>
    match S with
    | [] => []
    | _ => union S (upTo f n (f S))

/-- Longest remaining input of a set of suffixes, plus one: a bound on the
number of iterations that can still consume input. -/
def fuel (S : List (List Char)) : Nat :=
  (S.map List.length).foldr max 0 + 1

/-- One matching step: from the set `S` of remaining inputs, the set of inputs
that remain after the expression has matched a leading part of one of them. -/
def step : Regexp → List (List Char) → List (List Char)
  | empty, S => S
  | cls rs, S =>
      S.filterMap (fun s =>
        match s with
        | c :: t => if inClass rs c then some t else none
        | [] => none)
  | cat a b, S => step b (step a S)
  | alt a b, S => union (step a S) (step b S)
  | rep a lo hi, S =>
      let S1 := times (step a) lo S
      match hi with
      | none => upTo (step a) (fuel S1) S1
      | some h => upTo (step a) (h - lo) S1

/-- The anchored match `^r$`: the whole input is consumed. -/
def MatchString (r : Regexp) (s : List Char) : Bool :=
  (step r [s]).elem []

/-- The builder `literal(s)` of `regexp.go`, for a one-character literal. -/
def literal (c : Char) : Regexp := cls [(c, c)]

/-- The builder `expression(res...)` of `regexp.go`: the concatenation of the expressions. -/
def expression : List Regexp → Regexp
  | [] => empty
  | [r] => r
  | r :: rs => cat r (expression rs)

/-- The builder `optional(res...)` of `regexp.go`: `(?:...)?`. -/
def optional (rs : List Regexp) : Regexp := rep (expression rs) 0 (some 1)

/-- The builder `repeated(res...)` of `regexp.go`: `(?:...)+`. -/
def repeated (rs : List Regexp) : Regexp := rep (expression rs) 1 none

/-- Modelled from the spec: `alphaNumericRegexp` of the reference library, `[a-z0-9]+`. -/
def alphaNumericRegexp : Regexp := rep (cls [('a', 'z'), ('0', '9')]) 1 none

/-- Modelled from the spec: `separatorRegexp` of the reference library,
`(?:[._]|__|[-]*)`. -/
def separatorRegexp : Regexp :=
  alt (cls [('.', '.'), ('_', '_')])
    (alt (cat (literal '_') (literal '_')) (rep (literal '-') 0 none))

/-- Modelled from the spec: `nameComponentRegexp` of the reference library:
alphanumerics separated by separators. -/
def nameComponentRegexp : Regexp :=
  expression [alphaNumericRegexp, optional [repeated [separatorRegexp, alphaNumericRegexp]]]

/-- Modelled from the spec: `domainComponentRegexp` of the reference library,
`(?:[a-zA-Z0-9]|[a-zA-Z0-9][a-zA-Z0-9-]*[a-zA-Z0-9])`. -/
def domainComponentRegexp : Regexp :=
  alt (cls [('a', 'z'), ('A', 'Z'), ('0', '9')])
    (expression [cls [('a', 'z'), ('A', 'Z'), ('0', '9')],
      rep (cls [('a', 'z'), ('A', 'Z'), ('0', '9'), ('-', '-')]) 0 none,
      cls [('a', 'z'), ('A', 'Z'), ('0', '9')]])

/-- Modelled from the spec: `DomainRegexp` of the reference library:
dot-separated components with an optional port. -/
def DomainRegexp : Regexp :=
  expression [domainComponentRegexp,
    optional [repeated [literal '.', domainComponentRegexp]],
    optional [literal ':', rep (cls [('0', '9')]) 1 none]]

/-- Modelled from the spec: `TagRegexp` of the reference library,
`[\w][\w.-]{0,127}`. -/
def TagRegexp : Regexp :=
  cat (cls [('0', '9'), ('A', 'Z'), ('a', 'z'), ('_', '_')])
    (rep (cls [('0', '9'), ('A', 'Z'), ('a', 'z'), ('_', '_'), ('.', '.'), ('-', '-')]) 0 (some 127))

/-- Modelled from the spec: `DigestRegexp` of the reference library,
`[A-Za-z][A-Za-z0-9]*(?:[-_+.][A-Za-z][A-Za-z0-9]*)*[:][[:xdigit:]]{32,}`. -/
def DigestRegexp : Regexp :=
  expression [cls [('A', 'Z'), ('a', 'z')],
    rep (cls [('A', 'Z'), ('a', 'z'), ('0', '9')]) 0 none,
    rep (expression [cls [('-', '-'), ('_', '_'), ('+', '+'), ('.', '.')],
          cls [('A', 'Z'), ('a', 'z')],
          rep (cls [('A', 'Z'), ('a', 'z'), ('0', '9')]) 0 none]) 0 none,
    literal ':',
    rep (cls [('0', '9'), ('A', 'F'), ('a', 'f')]) 32 none]

/-- Modelled from the spec: `NameRegexp` of the reference library: an optional
domain and slash-separated name components. -/
def NameRegexp : Regexp :=
  expression [optional [DomainRegexp, literal '/'],
    nameComponentRegexp,
    optional [repeated [literal '/', nameComponentRegexp]]]

/-- Modelled from the spec: `IdentifierRegexp` of the reference library,
`([a-f0-9]{64})`. -/
def IdentifierRegexp : Regexp := rep (cls [('a', 'f'), ('0', '9')]) 64 (some 64)

end Regexp

/-! ## `github.com/opencontainers/go-digest` -/

/-- Errors of reference and digest parsing (the `Err...` values of the two
libraries; `noName` and `identifierAsName` are their two `fmt.Errorf` results). -/
inductive RefError where
  | ErrDigestInvalidFormat
  | ErrDigestUnsupported
  | ErrDigestInvalidLength
  | ErrReferenceInvalidFormat
  | ErrNameContainsUppercase
  | ErrNameEmpty
  | ErrNameTooLong
  | repositoryNameMustBeLowercase
  | identifierAsName
  | noName
  deriving DecidableEq, Repr

namespace digest

/-- Go `len(s)`: the length of a string in bytes. -/
def len (s : List Char) : Nat := (String.mk s).utf8ByteSize

/-- Modelled from the spec: `Algorithm.Size` of go-digest, in bytes, for the
registered algorithms; `none` when the algorithm is not available. -/
def Size (algorithm : List Char) : Option Nat :=
  if algorithm = "sha256".toList then some 32
  else if algorithm = "sha384".toList then some 48
  else if algorithm = "sha512".toList then some 64
  else none

/-- Modelled from the spec: `DigestRegexp` of go-digest,
`[a-z0-9]+(?:[.+_-][a-z0-9]+)*:[a-zA-Z0-9=_-]+`. -/
def DigestRegexp : Regexp :=
  Regexp.expression [Regexp.rep (.cls [('a', 'z'), ('0', '9')]) 1 none,
    Regexp.rep (Regexp.expression [.cls [('.', '.'), ('+', '+'), ('_', '_'), ('-', '-')],
      Regexp.rep (.cls [('a', 'z'), ('0', '9')]) 1 none]) 0 none,
    Regexp.literal ':',
    Regexp.rep (.cls [('a', 'z'), ('A', 'Z'), ('0', '9'), ('=', '='), ('_', '_'), ('-', '-')]) 1 none]

/-- Modelled from the spec: `Algorithm.Validate(encoded)` of go-digest for an
available algorithm of size `size`:
the hex part has length `size*2` and matches `^[a-f0-9]{size*2}$`. -/
def validateEncoded (size : Nat) (encoded : List Char) : Except RefError Unit :=
  if size * 2 ≠ len encoded then .error .ErrDigestInvalidLength
  else if Regexp.MatchString (.rep (.cls [('a', 'f'), ('0', '9')]) (size * 2) (some (size * 2))) encoded
  then .ok ()
  else .error .ErrDigestInvalidFormat

/-- Modelled from the spec: `Digest.Validate` of go-digest (outside `cmd/common`),
the spec's "content hash (algorithm + hex/base32 value)": the string is
`algorithm:encoded` with an available algorithm and a well-formed hex part. -/
def Validate (s : List Char) : Except RefError Unit :=
  let algorithm := s.takeWhile (fun c => c != ':')
  match s.dropWhile (fun c => c != ':') with
  | [] => .error .ErrDigestInvalidFormat
  | _ :: encoded =>
    if algorithm = [] ∨ encoded = [] then .error .ErrDigestInvalidFormat
    else match Size algorithm with
      | none =>
        if Regexp.MatchString DigestRegexp s then .error .ErrDigestUnsupported
        else .error .ErrDigestInvalidFormat
      | some size => validateEncoded size encoded

/-- Modelled from the spec: `digest.Parse(s)` of go-digest (outside `cmd/common`):
the string as a digest when it validates. -/
def Parse (s : String) : Except RefError String :=
  match Validate s.toList with
  | .ok _ => .ok s
  | .error e => .error e

end digest

/-! ## `github.com/distribution/distribution/reference` -/

namespace reference

/-- A parsed reference: a bare digest, or a name with the tag and digest the
grammar captured (empty when absent). -/
inductive Reference where
  | digestReference (d : String)
  | named (name tag dgst : String)
  deriving DecidableEq, Repr

/-- The constant `NameTotalLengthMax` of the reference library. -/
def NameTotalLengthMax : Nat := 255

/-- Insert a remaining input into a list ordered by length, shortest first. -/
def insertByLength (x : List Char) : List (List Char) → List (List Char)
  | [] => [x]
  | y :: ys => if x.length ≤ y.length then x :: y :: ys else y :: insertByLength x ys

/-- The remaining inputs ordered by length, shortest first: the longest match
comes first. -/
def longestMatchFirst (S : List (List Char)) : List (List Char) :=
  S.foldr insertByLength []

/-- The part of a reference after its tag, `(?:@(digest))?$`: the captured
digest, empty when there is none. -/
def submatchDigest : List Char → Option (List Char)
  | [] => some []
  | '@' :: d => if Regexp.MatchString Regexp.DigestRegexp d then some d else none
  | _ => none

/-- The part of a reference after its name, `(?::(tag))?(?:@(digest))?$`: the
captured tag and digest, longer tags tried first. -/
def submatchTagDigest : List Char → Option (List Char × List Char)
  | ':' :: r =>
      (longestMatchFirst (Regexp.step Regexp.TagRegexp [r])).findSome? (fun rest =>
        (submatchDigest rest).map (fun d => (r.take (r.length - rest.length), d)))
  | rest => (submatchDigest rest).map (fun d => ([], d))

/-- Modelled from the spec: `ReferenceRegexp.FindStringSubmatch(s)` of the
reference library for the anchored expression
`^(name)(?::(tag))?(?:@(digest))?$`: the three captured groups, longer names
tried first. -/
def FindStringSubmatch (s : List Char) : Option (List Char × List Char × List Char) :=
  (longestMatchFirst (Regexp.step Regexp.NameRegexp [s])).findSome? (fun rest =>
    (submatchTagDigest rest).map (fun td => (s.take (s.length - rest.length), td.1, td.2)))

/-- Modelled from the spec: `reference.Parse(s)` of the reference library (outside
`cmd/common`): the string matches `name[:tag][@digest]`, the name is at most
255 bytes long and the digest, when there is one, validates. -/
def Parse (s : List Char) : Except RefError Reference :=
  match FindStringSubmatch s with
  | none =>
    if s = [] then .error .ErrNameEmpty
    else if (FindStringSubmatch (s.map Char.toLower)).isSome then .error .ErrNameContainsUppercase
    else .error .ErrReferenceInvalidFormat
  | some (name, tag, dgst) =>
    if digest.len name > NameTotalLengthMax then .error .ErrNameTooLong
    else if dgst ≠ [] then
      match digest.Parse (String.mk dgst) with
      | .error e => .error e
      | .ok d => .ok (.named (String.mk name) (String.mk tag) d)
    else .ok (.named (String.mk name) (String.mk tag) "")

/-- The constant `defaultDomain` of the reference library. -/
def defaultDomain : List Char := "docker.io".toList

/-- The constant `legacyDefaultDomain` of the reference library. -/
def legacyDefaultDomain : List Char := "index.docker.io".toList

/-- The constant `officialRepoName` of the reference library. -/
def officialRepoName : List Char := "library".toList

/-- Modelled from the spec: `splitDockerDomain(name)` of the reference library:
the domain and the remainder of a familiar name. -/
def splitDockerDomain (name : List Char) : List Char × List Char :=
  let head := name.takeWhile (fun c => c != '/')
  let split : List Char × List Char :=
    match name.dropWhile (fun c => c != '/') with
    | [] => (defaultDomain, name)
    | _ :: tail =>
      if !(head.any (fun c => c == '.' || c == ':')) && head != "localhost".toList
      then (defaultDomain, name)
      else (head, tail)
  let domain := if split.1 = legacyDefaultDomain then defaultDomain else split.1
  let remainder :=
    if domain = defaultDomain ∧ ¬ split.2.contains '/' then officialRepoName ++ '/' :: split.2
    else split.2
  (domain, remainder)

/-- Modelled from the spec: `ParseNormalizedNamed(s)` of the reference library
(outside `cmd/common`): a familiar name, normalised and parsed. `strings.ToLower`
is taken on the letters `A` to `Z`; a name with any other upper-case letter
is rejected by `Parse`. -/
def ParseNormalizedNamed (s : List Char) : Except RefError Reference :=
  if Regexp.MatchString Regexp.IdentifierRegexp s then .error .identifierAsName
  else
    let dr := splitDockerDomain s
    let remoteName := dr.2.takeWhile (fun c => c != ':')
    if remoteName.map Char.toLower ≠ remoteName then .error .repositoryNameMustBeLowercase
    else
      match Parse (dr.1 ++ '/' :: dr.2) with
      | .error e => .error e
      | .ok (.named name tag dgst) => .ok (.named name tag dgst)
      | .ok (.digestReference _) => .error .noName

/-- Modelled from the spec: `reference.ParseAnyReference(ref)` of the imported
library `github.com/distribution/distribution/reference` (outside `cmd/common`),
the spec's parse "as a fully-formed reference ... using standard reference
grammar": a reference string as a possible identifier, full digest, or
familiar name. -/
def ParseAnyReference (ref : String) : Except RefError Reference :=
  if Regexp.MatchString Regexp.IdentifierRegexp ref.toList then
    .ok (.digestReference ("sha256:" ++ ref))
  else
    match digest.Parse ref with
    | .ok d => .ok (.digestReference d)
    | .error _ => ParseNormalizedNamed ref.toList

end reference

/-! ## Contexts and media-type key prefixes (`containerd/remotes`) -/

/-- A `context.Context` as far as this package touches it: the value stored
under the key `refKeyPrefix{}` (a `map[string]string`, absent until the first
registration) and the values under all other keys, which nothing here reads
or writes. -/
structure Context where
  refKeyPrefix : Option (String → Option String)
  values : List (String × String)

/-- The empty context, `context.Background()`. -/
def Context.Background : Context := ⟨none, []⟩

/-- The key prefix registered in a context for a media type, if any. -/
def Context.lookup (ctx : Context) (mediaType : String) : Option String :=
  match ctx.refKeyPrefix with
  | none => none
  | some values => values mediaType

/-- Modelled from the spec: `remotes.WithMediaTypeKeyPrefix(ctx, mediaType, prefix)`
of the imported containerd library (outside `cmd/common`), the spec's media-type
tagging of a context: the map found in the context (a fresh one when there is
none) with `mediaType` set to the prefix, stored under `refKeyPrefix{}`. The
library updates a map it finds in place; the definition gives the context
that results. -/
def WithMediaTypeKeyPrefix (ctx : Context) (mediaType pfx : String) : Context :=
  let values : String → Option String :=
    match ctx.refKeyPrefix with
    | some v => v
    | none => fun _ => none
  { ctx with refKeyPrefix := some (fun k => if k = mediaType then some pfx else values k) }

/-- The four media type constants of the root package `onmetalimage`. Their
values are declared outside `cmd/common`, so they are parameters here. -/
structure MediaTypes where
  ConfigMediaType : String
  RootFSLayerMediaType : String
  InitRAMFSLayerMediaType : String
  KernelLayerMediaType : String

/-- The function `SetupContext(ctx)`: sets up the context to not log warnings
on onmetal media types. -/
def SetupContext (mt : MediaTypes) (ctx : Context) : Context :=
  let ctx := WithMediaTypeKeyPrefix ctx mt.ConfigMediaType "config-"
  let ctx := WithMediaTypeKeyPrefix ctx mt.RootFSLayerMediaType "layer-"
  let ctx := WithMediaTypeKeyPrefix ctx mt.InitRAMFSLayerMediaType "layer-"
  let ctx := WithMediaTypeKeyPrefix ctx mt.KernelLayerMediaType "layer-"
  ctx

/-! ## Descriptors, the index and the store -/

/-- The method `digest.Digest.String()`: a digest is a string type and this is
its string. -/
def digest.String (d : String) : String := d

/-- The type `ocispec.Descriptor`: media type, digest and size of a stored blob. -/
structure Descriptor where
  MediaType : String
  Digest : String
  Size : Int
  deriving DecidableEq, Repr

/-- Modelled from the spec: `descriptormatcher.Matcher` (outside `cmd/common`), "a
predicate over Descriptors used to search the Index". -/
abbrev Matcher := Descriptor → Bool

/-- Modelled from the spec: `digest.Encoded` as the matcher of
`oci/descriptormatcher` (outside `cmd/common`) uses it, "the string encoding of
its digest ... after stripping any algorithm prefix (e.g., `sha256:`)". -/
def Encoded (d : String) : List Char :=
  match d.toList.dropWhile (fun c => c != ':') with
  | [] => d.toList
  | _ :: encoded => encoded

/-- Modelled from the spec: `descriptormatcher.EncodedDigestPrefix(p)` of
`oci/descriptormatcher` (outside `cmd/common`): it "matches a Descriptor iff the
string encoding of its digest starts with `p` after stripping any algorithm
prefix", case-sensitively. -/
def EncodedDigestPrefix (p : String) : Matcher :=
  fun d => p.toList.isPrefixOf (Encoded d.Digest)

/-- The `Indexer` interface of `oci/indexer` as `FuzzyResolveRef` uses it: its
`Find` method. -/
structure Indexer where
  Find : Context → Matcher → Except GoError Descriptor

/-- The store layout: it hands out the indexer. -/
structure Layout where
  Indexer : Indexer

/-- The type `store.Store` as `FuzzyResolveRef` uses it: it hands out its layout. -/
structure Store where
  Layout : Layout

/-- Modelled from the spec: `Index().Find(matcher)` of the local store (outside
`cmd/common`): "`Find(matcher) -> Descriptor | fails with NotFound` when no
entry matches, or `AmbiguousMatch` when more than one entry matches", the
ambiguity error enumerating the candidates in its payload. -/
def Index.Find (entries : List Descriptor) (m : Matcher) : Except GoError Descriptor :=
  match entries.filter m with
  | [] => .error .NotFound
  | [d] => .ok d
  | ds => .error (.AmbiguousMatch (ds.map (fun d => d.Digest)))

/-- Modelled from the spec: a store whose index holds the given entries (the
store and its index are outside `cmd/common`). -/
def Store.ofIndex (entries : List Descriptor) : Store :=
  ⟨⟨⟨fun _ m => Index.Find entries m⟩⟩⟩

/-! ## `cmd/common/common.go` -/

/-- The method `err.Error()`: the message of an error. The two lookup errors are declared
outside `cmd/common`; their messages name the failure and, for an ambiguity, the candidates. -/
def GoError.Error : GoError → String
  | .errorString msg => msg
  | .wrapError msg _ => msg
  | .NotFound => "not found"
  | .AmbiguousMatch candidates => "ambiguous match: " ++ ", ".intercalate candidates

/-- The function `errors.Unwrap(err)`: the error a `%w` verb wrapped. -/
def GoError.Unwrap : GoError → Option GoError
  | .wrapError _ err => some err
  | _ => none

/-- The chain `errors.Is` and `errors.As` walk: the error, then what it wraps. -/
def GoError.chain : GoError → List GoError
  | .wrapError msg err => .wrapError msg err :: err.chain
  | e => [e]

/-- What one call of `FuzzyResolveRef` does: its two return values, and the
digest prefixes it looked up with `Indexer().Find`, in call order. -/
structure Outcome where
  val : String
  err : Option GoError
  finds : List String
  deriving DecidableEq, Repr

/-- The function `FuzzyResolveRef(ctx, store, ref)`: a reference that parses is returned as
it is; anything else is looked up in the index as a prefix of an encoded
digest. -/
def FuzzyResolveRef (ctx : Context) (store : Store) (ref : String) : Outcome :=
  match reference.ParseAnyReference ref with
  | .ok _ => ⟨ref, none, []⟩
  | .error _ =>
    match store.Layout.Indexer.Find ctx (EncodedDigestPrefix ref) with
    | .error err =>
      ⟨"", some (.wrapError ("error looking up ref " ++ ref ++ " as digest: " ++ err.Error) err), [ref]⟩
    | .ok dsc => ⟨digest.String dsc.Digest, none, [ref]⟩

/-- Addresses of string variables. -/
abbrev Addr := Nat

/-- The string variables of the program: what each address holds. -/
abbrev Heap := Addr → String

/-- Assignment `*a = v`. -/
def Heap.write (h : Heap) (a : Addr) (v : String) : Heap :=
  fun b => if b = a then v else h b

/-- A `*string`: nil or the address of a string variable. -/
inductive StringPtr where
  | nil
  | addr (a : Addr)
  deriving DecidableEq, Repr

/-- The type `StoreFactory`: a function without arguments; invoked in a heap it yields
the result of type `R` (`(*store.Store, error)` in the source), or `none`
when the invocation panics. -/
abbrev StoreFactory (R : Type) := Heap → Option R

/-- The function `DefaultStoreFactory(storePath)`: a new `StoreFactory` that dereferences
the store path at invocation time. `New` is `store.New` of `oci/store`, which
is outside `cmd/common`. -/
def DefaultStoreFactory {R : Type} (New : String → R) (storePath : StringPtr) : StoreFactory R :=
  fun heap =>
    match storePath with
    | .nil => none
    | .addr a => some (New (heap a))

/-- The package-level variables of `common`. -/
structure Package where
  DefaultStorePath : String
  deriving DecidableEq, Repr

/-- The package variables before `init` runs: the zero values. -/
def Package.zero : Package := ⟨""⟩

/-- The package `init()`: `UserHomeDir` is the result of `os.UserHomeDir()` and
`Join` is `filepath.Join` of two elements. -/
def init (UserHomeDir : Except GoError String) (Join : String → String → String)
    (pkg : Package) : Package :=
  match UserHomeDir with
  | .ok homeDir => { pkg with DefaultStorePath := Join homeDir ".onmetal" }
  | .error _ => pkg

/-! ## Sample data -/

/-- A stored manifest whose sha256 digest starts with `ab12cd`. -/
def sampleDescriptor : Descriptor :=
  ⟨"application/vnd.oci.image.manifest.v1+json",
   "sha256:ab12cd34ef56ab12cd34ef56ab12cd34ef56ab12cd34ef56ab12cd34ef56ab12", 428⟩

/-- A second stored manifest whose sha256 digest starts with `ab12ff`. -/
def otherDescriptor : Descriptor :=
  ⟨"application/vnd.oci.image.manifest.v1+json",
   "sha256:ab12ff34ef56ab12cd34ef56ab12cd34ef56ab12cd34ef56ab12cd34ef56ab12", 512⟩

/-- A stored blob whose digest uses an algorithm that go-digest does not
register (the digest is well-formed for the OCI digest grammar). -/
def multihashDescriptor : Descriptor :=
  ⟨"application/vnd.oci.image.manifest.v1+json",
   "multihash+base58:QmRZxt2b1FVZPNqd8hsiykDL3TdBDeTSPX9Kv46HmX4Gx8", 64⟩

/-- A second stored blob whose digest uses that algorithm; its encoded part also
starts with `QmRZ`. -/
def secondMultihashDescriptor : Descriptor :=
  ⟨"application/vnd.oci.image.manifest.v1+json",
   "multihash+base58:QmRZa8hsiykDL3TdBDeTSPX9Kv46HmX4Gx8xt2b1FVZPNq", 96⟩

/-- A store whose indexer answers a lookup with the first entry the matcher
accepts, and fails with not-found when it accepts none: an indexer that does
not count matches. -/
def Store.firstMatch (entries : List Descriptor) : Store :=
  ⟨⟨⟨fun _ m =>
    match entries.find? m with
    | some d => .ok d
    | none => .error .NotFound⟩⟩⟩

/-- The media type constants as the root package declares them. -/
def onmetalMediaTypes : MediaTypes :=
  { ConfigMediaType := "application/vnd.onmetal.image.config.v1alpha1+json"
    RootFSLayerMediaType := "application/vnd.onmetal.image.rootfs.v1alpha1.rootfs"
    InitRAMFSLayerMediaType := "application/vnd.onmetal.image.initramfs.v1alpha1.initramfs"
    KernelLayerMediaType := "application/vnd.onmetal.image.vmlinuz.v1alpha1.vmlinuz" }

/-! ## Lemmas on the index lookup -/

theorem Index.Find_none (entries : List Descriptor) (m : Matcher)
    (h : ∀ d ∈ entries, m d = false) : Index.Find entries m = .error .NotFound := by
  have hf : entries.filter m = [] := by
    rw [List.filter_eq_nil_iff]
    intro d hd
    simp [h d hd]
  simp [Index.Find, hf]

theorem Index.Find_one (entries : List Descriptor) (m : Matcher) (d : Descriptor)
    (h : entries.filter m = [d]) : Index.Find entries m = .ok d := by
  simp [Index.Find, h]

theorem Index.Find_mem (entries : List Descriptor) (m : Matcher) (d : Descriptor)
    (h : Index.Find entries m = .ok d) : d ∈ entries := by
  unfold Index.Find at h
  have hsub : ∀ x ∈ entries.filter m, x ∈ entries := fun x hx => (List.mem_filter.mp hx).1
  generalize entries.filter m = ds at h hsub
  match ds, h, hsub with
  | [x], h, hsub =>
    have hx : x = d := by simpa using h
    exact hx ▸ hsub x (by simp)

theorem reference.ParseAnyReference_of_digest (s : String)
    (h : digest.Parse s = .ok s) : ∃ r, reference.ParseAnyReference s = .ok r := by
  unfold reference.ParseAnyReference
  split
  · exact ⟨_, rfl⟩
  · rw [h]
    exact ⟨_, rfl⟩

theorem FuzzyResolveRef_of_find_error (ctx : Context) (store : Store) (ref : String)
    (e : RefError) (err : GoError)
    (hparse : reference.ParseAnyReference ref = .error e)
    (hfind : store.Layout.Indexer.Find ctx (EncodedDigestPrefix ref) = .error err) :
    FuzzyResolveRef ctx store ref =
      ⟨"", some (.wrapError ("error looking up ref " ++ ref ++ " as digest: " ++ err.Error) err),
        [ref]⟩ := by
  simp only [FuzzyResolveRef, hparse, hfind]

theorem FuzzyResolveRef_of_find_ok (ctx : Context) (store : Store) (ref : String)
    (e : RefError) (d : Descriptor)
    (hparse : reference.ParseAnyReference ref = .error e)
    (hfind : store.Layout.Indexer.Find ctx (EncodedDigestPrefix ref) = .ok d) :
    FuzzyResolveRef ctx store ref = ⟨digest.String d.Digest, none, [ref]⟩ := by
  simp only [FuzzyResolveRef, hparse, hfind]

theorem FuzzyResolveRef_of_parse (ctx : Context) (store : Store) (ref : String)
    (r : reference.Reference) (hparse : reference.ParseAnyReference ref = .ok r) :
    FuzzyResolveRef ctx store ref = ⟨ref, none, []⟩ := by
  simp only [FuzzyResolveRef, hparse]

/-! ## Theorems -/

/-- C1: a reference that `ParseAnyReference` accepts is returned exactly as it
is with a nil error, `Indexer().Find` is not called, and the outcome is the
same for every context and every store. -/
theorem FuzzyResolveRef_parse_ok (ctx : Context) (store : Store) (ref : String)
    (r : reference.Reference) (h : reference.ParseAnyReference ref = .ok r) :
    FuzzyResolveRef ctx store ref = ⟨ref, none, []⟩ ∧
    ∀ (ctx2 : Context) (store2 : Store),
      FuzzyResolveRef ctx2 store2 ref = FuzzyResolveRef ctx store ref := by
  refine ⟨FuzzyResolveRef_of_parse ctx store ref r h, fun ctx2 store2 => ?_⟩
  rw [FuzzyResolveRef_of_parse ctx store ref r h, FuzzyResolveRef_of_parse ctx2 store2 ref r h]

theorem FuzzyResolveRef_parse_ok_witness :
    reference.ParseAnyReference "busybox:1.36" =
        .ok (.named "docker.io/library/busybox" "1.36" "") ∧
      FuzzyResolveRef Context.Background (Store.ofIndex [sampleDescriptor]) "busybox:1.36" =
        ⟨"busybox:1.36", none, []⟩ :=
  ⟨by decide, (FuzzyResolveRef_parse_ok Context.Background (Store.ofIndex [sampleDescriptor])
    "busybox:1.36" (.named "docker.io/library/busybox" "1.36" "") (by decide)).1⟩

/-- C2, as stated, fails: the index holds exactly one descriptor whose encoded
digest starts with `ab12`, yet `FuzzyResolveRef` returns the input `ab12`
(which parses as a repository name) and not the stored digest, without
looking the prefix up. -/
theorem FuzzyResolveRef_ab12_unchanged :
    [sampleDescriptor].filter (EncodedDigestPrefix "ab12") = [sampleDescriptor] ∧
      reference.ParseAnyReference "ab12" = .ok (.named "docker.io/library/ab12" "" "") ∧
      FuzzyResolveRef Context.Background (Store.ofIndex [sampleDescriptor]) "ab12" =
        ⟨"ab12", none, []⟩ ∧
      (FuzzyResolveRef Context.Background (Store.ofIndex [sampleDescriptor]) "ab12").val ≠
        digest.String sampleDescriptor.Digest := by
  decide

/-- C2, amended: for the digest prefix `ab12` and an index holding exactly one
descriptor `d` whose encoded digest starts with `ab12`, `FuzzyResolveRef`
returns the input `ab12` unchanged with a nil error and makes no index lookup,
because `ab12` parses as a reference (the repository name
`docker.io/library/ab12`); the lookup it skips would have returned `d`, and
the digest string of `d` is not what is returned unless it is `ab12` itself. -/
theorem FuzzyResolveRef_ab12_unique_match (ctx : Context) (entries : List Descriptor)
    (d : Descriptor) (hone : entries.filter (EncodedDigestPrefix "ab12") = [d]) :
    FuzzyResolveRef ctx (Store.ofIndex entries) "ab12" = ⟨"ab12", none, []⟩ ∧
    (Store.ofIndex entries).Layout.Indexer.Find ctx (EncodedDigestPrefix "ab12") = .ok d ∧
    (d.Digest ≠ "ab12" →
      (FuzzyResolveRef ctx (Store.ofIndex entries) "ab12").val ≠ digest.String d.Digest) := by
  have hout : FuzzyResolveRef ctx (Store.ofIndex entries) "ab12" = ⟨"ab12", none, []⟩ :=
    FuzzyResolveRef_of_parse ctx (Store.ofIndex entries) "ab12"
      (.named "docker.io/library/ab12" "" "") (by decide)
  refine ⟨hout, Index.Find_one _ _ _ hone, ?_⟩
  intro hne
  rw [hout]
  exact fun h => hne h.symm

theorem FuzzyResolveRef_ab12_unique_match_witness :
    [multihashDescriptor, sampleDescriptor].filter (EncodedDigestPrefix "ab12") =
        [sampleDescriptor] ∧
      FuzzyResolveRef Context.Background (Store.ofIndex [multihashDescriptor, sampleDescriptor])
          "ab12" = ⟨"ab12", none, []⟩ ∧
      (Store.ofIndex [multihashDescriptor, sampleDescriptor]).Layout.Indexer.Find
          Context.Background (EncodedDigestPrefix "ab12") = .ok sampleDescriptor :=
  have h := FuzzyResolveRef_ab12_unique_match Context.Background
    [multihashDescriptor, sampleDescriptor] sampleDescriptor (by decide)
  ⟨by decide, h.1, h.2.1⟩

/-- C3: when the reference fails to parse and `Find` with the
`EncodedDigestPrefix` matcher returns a descriptor and no error,
`FuzzyResolveRef` returns the string of that descriptor's digest with a nil
error, after exactly that one lookup. -/
theorem FuzzyResolveRef_find_ok (ctx : Context) (store : Store) (ref : String)
    (d : Descriptor) (e : RefError)
    (hparse : reference.ParseAnyReference ref = .error e)
    (hfind : store.Layout.Indexer.Find ctx (EncodedDigestPrefix ref) = .ok d) :
    FuzzyResolveRef ctx store ref = ⟨digest.String d.Digest, none, [ref]⟩ ∧
    digest.String d.Digest = d.Digest := by
  exact ⟨FuzzyResolveRef_of_find_ok ctx store ref e d hparse hfind, rfl⟩

theorem FuzzyResolveRef_find_ok_witness :
    FuzzyResolveRef Context.Background (Store.ofIndex [multihashDescriptor, sampleDescriptor])
        "QmRZ" =
      ⟨"multihash+base58:QmRZxt2b1FVZPNqd8hsiykDL3TdBDeTSPX9Kv46HmX4Gx8", none, ["QmRZ"]⟩ :=
  (FuzzyResolveRef_find_ok Context.Background
    (Store.ofIndex [multihashDescriptor, sampleDescriptor]) "QmRZ" multihashDescriptor
    .repositoryNameMustBeLowercase (by decide) (by decide)).1

/-- C4: when the reference fails to parse and no descriptor of the index has
an encoded digest starting with it, `FuzzyResolveRef` returns the empty
string and a non-nil error that wraps the lookup's not-found error. -/
theorem FuzzyResolveRef_not_found (ctx : Context) (entries : List Descriptor)
    (ref : String) (e : RefError)
    (hparse : reference.ParseAnyReference ref = .error e)
    (hnone : ∀ d ∈ entries, EncodedDigestPrefix ref d = false) :
    FuzzyResolveRef ctx (Store.ofIndex entries) ref =
      ⟨"", some (.wrapError ("error looking up ref " ++ ref ++ " as digest: " ++
          GoError.NotFound.Error) .NotFound), [ref]⟩ ∧
    (FuzzyResolveRef ctx (Store.ofIndex entries) ref).err.bind GoError.Unwrap =
      some .NotFound := by
  have hout := FuzzyResolveRef_of_find_error ctx (Store.ofIndex entries) ref e .NotFound hparse
    (Index.Find_none _ _ hnone)
  rw [hout]
  exact ⟨rfl, rfl⟩

theorem FuzzyResolveRef_not_found_witness :
    FuzzyResolveRef Context.Background (Store.ofIndex [sampleDescriptor, otherDescriptor])
        "AB12" =
      ⟨"", some (.wrapError "error looking up ref AB12 as digest: not found" .NotFound),
        ["AB12"]⟩ :=
  (FuzzyResolveRef_not_found Context.Background [sampleDescriptor, otherDescriptor] "AB12"
    .repositoryNameMustBeLowercase (by decide) (by decide)).1

/-- C5, as stated, fails: `FuzzyResolveRef` counts no matches itself. Two
descriptors of the index have an encoded digest starting with `QmRZ`, which
does not parse as a reference; with an indexer that answers with the first
match, `FuzzyResolveRef` returns the digest of one of the two candidates and
a nil error. -/
theorem FuzzyResolveRef_returns_first_match :
    [multihashDescriptor, sampleDescriptor, secondMultihashDescriptor].filter
        (EncodedDigestPrefix "QmRZ") = [multihashDescriptor, secondMultihashDescriptor] ∧
      reference.ParseAnyReference "QmRZ" = .error .repositoryNameMustBeLowercase ∧
      FuzzyResolveRef Context.Background
          (Store.firstMatch [multihashDescriptor, sampleDescriptor, secondMultihashDescriptor])
          "QmRZ" =
        ⟨"multihash+base58:QmRZxt2b1FVZPNqd8hsiykDL3TdBDeTSPX9Kv46HmX4Gx8", none, ["QmRZ"]⟩ := by
  decide

/-- C5, amended: for a reference that fails to parse, `FuzzyResolveRef` forwards
what the index lookup yields. If `Find` fails with an ambiguity error that
carries the candidate digests, `FuzzyResolveRef` returns the empty string and
an error that wraps it, so the candidate list is in the chain of the returned
error; if `Find` returns a descriptor, as a first-match indexer does when
several descriptors match, `FuzzyResolveRef` returns the digest of that
descriptor with a nil error. -/
theorem FuzzyResolveRef_forwards_lookup (ctx : Context) (store : Store) (ref : String)
    (pe : RefError) (hparse : reference.ParseAnyReference ref = .error pe) :
    (∀ candidates : List String,
      store.Layout.Indexer.Find ctx (EncodedDigestPrefix ref) =
          .error (.AmbiguousMatch candidates) →
        FuzzyResolveRef ctx store ref =
          ⟨"", some (.wrapError ("error looking up ref " ++ ref ++ " as digest: " ++
              (GoError.AmbiguousMatch candidates).Error) (.AmbiguousMatch candidates)), [ref]⟩ ∧
        ∀ err, (FuzzyResolveRef ctx store ref).err = some err →
          err.Unwrap = some (.AmbiguousMatch candidates) ∧
          GoError.AmbiguousMatch candidates ∈ err.chain) ∧
    (∀ d : Descriptor,
      store.Layout.Indexer.Find ctx (EncodedDigestPrefix ref) = .ok d →
        FuzzyResolveRef ctx store ref = ⟨digest.String d.Digest, none, [ref]⟩) := by
  refine ⟨fun candidates hfind => ?_, fun d hfind => ?_⟩
  · have hout := FuzzyResolveRef_of_find_error ctx store ref pe _ hparse hfind
    refine ⟨hout, fun err herr => ?_⟩
    rw [hout] at herr
    simp only [Option.some.injEq] at herr
    subst herr
    exact ⟨rfl, by simp [GoError.chain]⟩
  · exact FuzzyResolveRef_of_find_ok ctx store ref pe d hparse hfind

theorem FuzzyResolveRef_forwards_lookup_witness :
    FuzzyResolveRef Context.Background
          (Store.ofIndex [multihashDescriptor, sampleDescriptor, secondMultihashDescriptor])
          "QmRZ" =
        ⟨"", some (.wrapError
            ("error looking up ref QmRZ as digest: ambiguous match: " ++
              "multihash+base58:QmRZxt2b1FVZPNqd8hsiykDL3TdBDeTSPX9Kv46HmX4Gx8, " ++
              "multihash+base58:QmRZa8hsiykDL3TdBDeTSPX9Kv46HmX4Gx8xt2b1FVZPNq")
            (.AmbiguousMatch
              ["multihash+base58:QmRZxt2b1FVZPNqd8hsiykDL3TdBDeTSPX9Kv46HmX4Gx8",
               "multihash+base58:QmRZa8hsiykDL3TdBDeTSPX9Kv46HmX4Gx8xt2b1FVZPNq"])),
          ["QmRZ"]⟩ ∧
      FuzzyResolveRef Context.Background
          (Store.firstMatch [sampleDescriptor, secondMultihashDescriptor, multihashDescriptor])
          "QmRZ" =
        ⟨"multihash+base58:QmRZa8hsiykDL3TdBDeTSPX9Kv46HmX4Gx8xt2b1FVZPNq", none, ["QmRZ"]⟩ :=
  ⟨((FuzzyResolveRef_forwards_lookup Context.Background
      (Store.ofIndex [multihashDescriptor, sampleDescriptor, secondMultihashDescriptor])
      "QmRZ" .repositoryNameMustBeLowercase (by decide)).1
      ["multihash+base58:QmRZxt2b1FVZPNqd8hsiykDL3TdBDeTSPX9Kv46HmX4Gx8",
       "multihash+base58:QmRZa8hsiykDL3TdBDeTSPX9Kv46HmX4Gx8xt2b1FVZPNq"] (by decide)).1,
    (FuzzyResolveRef_forwards_lookup Context.Background
      (Store.firstMatch [sampleDescriptor, secondMultihashDescriptor, multihashDescriptor])
      "QmRZ" .repositoryNameMustBeLowercase (by decide)).2 secondMultihashDescriptor
      (by decide)⟩

/-- C6: `FuzzyResolveRef` returns an error exactly when the reference fails to
parse and the index lookup fails with some error `e`; the value returned is
then empty, the error's message is
`"error looking up ref " ++ ref ++ " as digest: " ++ e.Error`, and the error
wraps `e`: unwrapping it yields `e`. -/
theorem FuzzyResolveRef_error_iff (ctx : Context) (store : Store) (ref : String)
    (err : GoError) :
    (FuzzyResolveRef ctx store ref).err = some err ↔
      ∃ (pe : RefError) (e : GoError),
        reference.ParseAnyReference ref = .error pe ∧
        store.Layout.Indexer.Find ctx (EncodedDigestPrefix ref) = .error e ∧
        (FuzzyResolveRef ctx store ref).val = "" ∧
        err.Error = "error looking up ref " ++ ref ++ " as digest: " ++ e.Error ∧
        err.Unwrap = some e ∧
        err = .wrapError ("error looking up ref " ++ ref ++ " as digest: " ++ e.Error) e := by
  cases hp : reference.ParseAnyReference ref with
  | ok r =>
    rw [FuzzyResolveRef_of_parse ctx store ref r hp]
    constructor
    · intro h
      cases h
    · rintro ⟨pe, e, h, _⟩
      cases h
  | error pe =>
    cases hf : store.Layout.Indexer.Find ctx (EncodedDigestPrefix ref) with
    | ok d =>
      rw [FuzzyResolveRef_of_find_ok ctx store ref pe d hp hf]
      constructor
      · intro h
        cases h
      · rintro ⟨_, e, _, h, _⟩
        cases h
    | error e =>
      rw [FuzzyResolveRef_of_find_error ctx store ref pe e hp hf]
      constructor
      · intro h
        simp only [Option.some.injEq] at h
        subst h
        exact ⟨pe, e, rfl, rfl, rfl, rfl, rfl, rfl⟩
      · rintro ⟨_, e2, _, h, -, -, -, herr⟩
        cases h
        rw [herr]

/-- C7: the factory built by `DefaultStoreFactory` for a string variable reads
that variable when it is invoked: invoked in any heap it returns `store.New`
of the value the heap holds there, so after a write of `v` it opens the store
at `v` and after a later write of `w` the same factory opens the store at
`w`. -/
theorem DefaultStoreFactory_deref {R : Type} (New : String → R) (a : Addr) (heap : Heap)
    (v w : String) :
    DefaultStoreFactory New (.addr a) heap = some (New (heap a)) ∧
    DefaultStoreFactory New (.addr a) (heap.write a v) = some (New v) ∧
    DefaultStoreFactory New (.addr a) ((heap.write a v).write a w) = some (New w) := by
  simp [DefaultStoreFactory, Heap.write]

/-- C8: after `init`, `DefaultStorePath` is `filepath.Join(home, ".onmetal")`
when `os.UserHomeDir` returned `home` without error, and the empty string when
it returned an error. -/
theorem init_DefaultStorePath (Join : String → String → String) :
    (∀ home : String,
      (init (.ok home) Join Package.zero).DefaultStorePath = Join home ".onmetal") ∧
    (∀ e : GoError, (init (.error e) Join Package.zero).DefaultStorePath = "") := by
  exact ⟨fun _ => rfl, fun _ => rfl⟩

/-- C9: when the config media type differs from the three layer media types,
`SetupContext` yields a context in which the config media type has the key
prefix `config-` and the root-fs, init-ramfs and kernel layer media types
have the key prefix `layer-`; every other media type has the prefix it had
in the input context (none if it had none), and the other values of the
context are unchanged. -/
theorem SetupContext_prefixes (mt : MediaTypes) (ctx : Context)
    (h1 : mt.ConfigMediaType ≠ mt.RootFSLayerMediaType)
    (h2 : mt.ConfigMediaType ≠ mt.InitRAMFSLayerMediaType)
    (h3 : mt.ConfigMediaType ≠ mt.KernelLayerMediaType) :
    (SetupContext mt ctx).lookup mt.ConfigMediaType = some "config-" ∧
    (SetupContext mt ctx).lookup mt.RootFSLayerMediaType = some "layer-" ∧
    (SetupContext mt ctx).lookup mt.InitRAMFSLayerMediaType = some "layer-" ∧
    (SetupContext mt ctx).lookup mt.KernelLayerMediaType = some "layer-" ∧
    (∀ m : String, m ≠ mt.ConfigMediaType → m ≠ mt.RootFSLayerMediaType →
      m ≠ mt.InitRAMFSLayerMediaType → m ≠ mt.KernelLayerMediaType →
      (SetupContext mt ctx).lookup m = ctx.lookup m) ∧
    (SetupContext mt ctx).values = ctx.values := by
  refine ⟨?_, ?_, ?_, ?_, ?_, ?_⟩
  · simp [SetupContext, WithMediaTypeKeyPrefix, Context.lookup, h1, h2, h3]
  · simp only [SetupContext, WithMediaTypeKeyPrefix, Context.lookup]
    split_ifs <;> rfl
  · simp only [SetupContext, WithMediaTypeKeyPrefix, Context.lookup]
    split_ifs <;> rfl
  · simp [SetupContext, WithMediaTypeKeyPrefix, Context.lookup]
  · intro m g1 g2 g3 g4
    cases hc : ctx.refKeyPrefix <;>
      simp [SetupContext, WithMediaTypeKeyPrefix, Context.lookup, hc, g1, g2, g3, g4]
  · rfl

theorem SetupContext_prefixes_witness :
    (SetupContext onmetalMediaTypes Context.Background).lookup
        "application/vnd.onmetal.image.config.v1alpha1+json" = some "config-" ∧
      (SetupContext onmetalMediaTypes Context.Background).lookup
        "application/vnd.onmetal.image.vmlinuz.v1alpha1.vmlinuz" = some "layer-" :=
  have h := SetupContext_prefixes onmetalMediaTypes Context.Background
    (by decide) (by decide) (by decide)
  ⟨h.1, h.2.2.2.1⟩

/-- C10, as stated, fails: for the prefix `QmRZ` the lookup returns the digest
of a stored descriptor whose algorithm go-digest does not register; that
digest string does not parse as a reference, and resolving it again fails
with a not-found error. -/
theorem FuzzyResolveRef_not_idempotent :
    FuzzyResolveRef Context.Background (Store.ofIndex [multihashDescriptor, sampleDescriptor])
        "QmRZ" =
      ⟨"multihash+base58:QmRZxt2b1FVZPNqd8hsiykDL3TdBDeTSPX9Kv46HmX4Gx8", none, ["QmRZ"]⟩ ∧
    reference.ParseAnyReference "multihash+base58:QmRZxt2b1FVZPNqd8hsiykDL3TdBDeTSPX9Kv46HmX4Gx8" =
      .error .ErrReferenceInvalidFormat ∧
    FuzzyResolveRef Context.Background (Store.ofIndex [multihashDescriptor, sampleDescriptor])
        "multihash+base58:QmRZxt2b1FVZPNqd8hsiykDL3TdBDeTSPX9Kv46HmX4Gx8" =
      ⟨"", some (.wrapError
          ("error looking up ref multihash+base58:QmRZxt2b1FVZPNqd8hsiykDL3TdBDeTSPX9Kv46HmX4Gx8" ++
            " as digest: not found") .NotFound),
        ["multihash+base58:QmRZxt2b1FVZPNqd8hsiykDL3TdBDeTSPX9Kv46HmX4Gx8"]⟩ := by
  decide

/-- C10, amended: for every store whose index lookups return only descriptors
with a digest that `digest.Parse` accepts, `FuzzyResolveRef` is idempotent on
success: if it returns `r` with a nil error, then resolving `r` returns `r`
with a nil error, without a lookup. -/
theorem FuzzyResolveRef_idempotent (ctx : Context) (store : Store) (ref : String)
    (hvalid : ∀ (m : Matcher) (d : Descriptor),
      store.Layout.Indexer.Find ctx m = .ok d → digest.Parse d.Digest = .ok d.Digest)
    (hok : (FuzzyResolveRef ctx store ref).err = none) :
    FuzzyResolveRef ctx store (FuzzyResolveRef ctx store ref).val =
      ⟨(FuzzyResolveRef ctx store ref).val, none, []⟩ := by
  cases hp : reference.ParseAnyReference ref with
  | ok r =>
    rw [FuzzyResolveRef_of_parse ctx store ref r hp]
    exact FuzzyResolveRef_of_parse ctx store ref r hp
  | error pe =>
    cases hf : store.Layout.Indexer.Find ctx (EncodedDigestPrefix ref) with
    | error e =>
      rw [FuzzyResolveRef_of_find_error ctx store ref pe e hp hf] at hok
      cases hok
    | ok d =>
      rw [FuzzyResolveRef_of_find_ok ctx store ref pe d hp hf]
      obtain ⟨r, hr⟩ := reference.ParseAnyReference_of_digest d.Digest (hvalid _ d hf)
      exact FuzzyResolveRef_of_parse ctx store d.Digest r hr

theorem FuzzyResolveRef_idempotent_witness :
    (FuzzyResolveRef Context.Background (Store.ofIndex [sampleDescriptor]) "").err = none ∧
      FuzzyResolveRef Context.Background (Store.ofIndex [sampleDescriptor])
          (FuzzyResolveRef Context.Background (Store.ofIndex [sampleDescriptor]) "").val =
        ⟨"sha256:ab12cd34ef56ab12cd34ef56ab12cd34ef56ab12cd34ef56ab12cd34ef56ab12", none, []⟩ :=
  ⟨by decide,
    FuzzyResolveRef_idempotent Context.Background (Store.ofIndex [sampleDescriptor]) ""
      (fun m d h => by
        have hmem : d ∈ [sampleDescriptor] := Index.Find_mem [sampleDescriptor] m d h
        have hd : d = sampleDescriptor := by simpa using hmem
        subst hd
        decide)
      (by decide)⟩


end OnmetalImage
